import Mathlib

/-!
Formal model of the PDF report layout engine of the stock fundamentals
decoder: the function `build_pdf` and its helpers in `services/utils.py`,
plus the `_render_pdf_controls` caller in `app.py`.  Text is modelled as
`List Char`, real-valued page coordinates as `ℚ`, the optional binary
encoder (`FPDF`) as a boolean availability flag, and Python dictionaries
as association lists / `Option`-valued fields.
-/

namespace Decoder

/-- Text is modelled as a list of characters. -/
abbrev Str := List Char

/-- Carriage return (the pattern of `text.replace` at line 136). -/
def crChar : Char := Char.ofNat 13

/-- Newline. -/
def nlChar : Char := Char.ofNat 10

/-- ASCII hyphen, the replacement for dashes and bullets. -/
def hyphenChar : Char := Char.ofNat 45

/-- ASCII apostrophe, the replacement for curly single quotes. -/
def aposChar : Char := Char.ofNat 39

/-- ASCII double quote, the replacement for curly double quotes. -/
def quoteChar : Char := Char.ofNat 34

/-- Asterisk, the markdown bold marker character. -/
def starChar : Char := Char.ofNat 42

/-- Em dash U+2014. -/
def emDashChar : Char := Char.ofNat 8212

/-- En dash U+2013. -/
def enDashChar : Char := Char.ofNat 8211

/-- Bullet U+2022. -/
def bulletChar : Char := Char.ofNat 8226

/-- Right single quotation mark U+2019. -/
def rsqChar : Char := Char.ofNat 8217

/-- Left single quotation mark U+2018. -/
def lsqChar : Char := Char.ofNat 8216

/-- Left double quotation mark U+201C. -/
def ldqChar : Char := Char.ofNat 8220

/-- Right double quotation mark U+201D. -/
def rdqChar : Char := Char.ofNat 8221

/-- Per-character normalisation done by `pdf_safe`: the pass
    `text.replace("\r", "\n")` followed by the fixed replacement table of
    typographic characters (lines 136-147).  All patterns and replacements
    are single characters with ASCII replacements, so the sequence of
    whole-string `str.replace` passes is a single character map. -/
def charNorm (c : Char) : Char :=
  if c = crChar then nlChar
  else if c = emDashChar then hyphenChar
  else if c = enDashChar then hyphenChar
  else if c = bulletChar then hyphenChar
  else if c = rsqChar then aposChar
  else if c = lsqChar then aposChar
  else if c = ldqChar then quoteChar
  else if c = rdqChar then quoteChar
  else c

/-- One left-to-right pass of Python `text.replace(a + a, a)`: on a match the
    scan resumes after the matched pair (line 148 with `a` the newline). -/
def collapsePairs (a : Char) : Str → Str
  | [] => []
  | [c] => [c]
  | c :: d :: rest =>
      if c = a ∧ d = a then a :: collapsePairs a rest
      else c :: collapsePairs a (d :: rest)

/-- One left-to-right pass of Python `text.replace(a + a, "")` (line 149 with
    `a` the asterisk, removing markdown bold markers). -/
def removePairs (a : Char) : Str → Str
  | [] => []
  | [c] => [c]
  | c :: d :: rest =>
      if c = a ∧ d = a then removePairs a rest
      else c :: removePairs a (d :: rest)

/-- Whether a string contains no two adjacent occurrences of `a`. -/
def noPair (a : Char) : Str → Bool
  | [] => true
  | [_] => true
  | c :: d :: rest => decide (¬ (c = a ∧ d = a)) && noPair a (d :: rest)

/-- A character survives `encode("latin-1", errors="ignore")` exactly when
    its code point is at most 255. -/
def latin1Keep (c : Char) : Bool := c.toNat ≤ 255

/-- The normalisation pipeline shared by both font modes: carriage-return and
    typographic replacement, doubled-newline collapse, bold-marker removal
    (lines 136-149). -/
def sanitizeCore (text : Str) : Str :=
  removePairs starChar (collapsePairs nlChar (text.map charNorm))

/-- The sanitizer `pdf_safe` of `build_pdf` (lines 133-152): normalise
    characters, collapse doubled newlines, strip markdown bold markers, and
    in fallback (non-unicode) mode additionally drop every character outside
    latin-1. -/
def pdf_safe (unicode_enabled : Bool) (text : Str) : Str :=
  if unicode_enabled then sanitizeCore text
  else (sanitizeCore text).filter latin1Keep

/-- Fixed left column width, `left_width = 110` (line 192). -/
def left_width : ℚ := 110

/-- Fixed gauge track height, `bar_height = 4` (line 231). -/
def bar_height : ℚ := 4

/-- Fixed chart height, `chart_height = 40` (line 251). -/
def chart_height : ℚ := 40

/-- The chart width equals the left column width (line 252). -/
def chart_width : ℚ := left_width

/-- The epsilon guarding the chart value span, `1e-6` (line 262). -/
def span_eps : ℚ := 1 / 1000000

/-- An axis-aligned rectangle as passed to `pdf.rect(x, y, w, h)`. -/
structure Rect where
  x : ℚ
  y : ℚ
  w : ℚ
  h : ℚ
deriving DecidableEq

/-- Horizontal center of a rectangle. -/
def rectCenterX (r : Rect) : ℚ := r.x + r.w / 2

/-- The clamp `pos = max(0.0, min(1.0, pos))` (line 223). -/
def clamp01 (pos : ℚ) : ℚ := max 0 (min 1 pos)

/-- The gauge position parse `float(slider.get("position", 0.5))` with the
    `except` fallback to `0.5` (lines 219-222).  The outer `Option` is the
    presence of the key, the inner `Option` is float-parseability of the
    stored value. -/
def parsedPosition (position : Option (Option ℚ)) : ℚ :=
  match position with
  | none => 1 / 2
  | some none => 1 / 2
  | some (some q) => q

/-- The gauge marker rectangle
    `pdf.rect(pointer_x - 1.5, bar_y - 1, 3, bar_height + 2)` where
    `pointer_x = bar_x + bar_width * pos` after clamping and
    `bar_width = left_width` (lines 223, 236-238). -/
def markerRect (bar_x bar_y pos : ℚ) : Rect :=
  ⟨bar_x + left_width * clamp01 pos - 3 / 2, bar_y - 1, 3, bar_height + 2⟩

/-- The gauge track rectangle `pdf.rect(bar_x, bar_y, bar_width, bar_height)`
    (line 235). -/
def trackRect (bar_x bar_y : ℚ) : Rect := ⟨bar_x, bar_y, left_width, bar_height⟩

/-- Literal "N/A", the default display string. -/
def strNA : Str := ("N/A").data

/-- Python `dict.get` on a string-keyed mapping: the first binding for the
    key, if any. -/
def dictGet (m : List (Str × Str)) (key : Str) : Option Str :=
  match m with
  | [] => none
  | (k, v) :: rest => if k = key then some v else dictGet rest key

/-- `write_metric(label, value_key)` (lines 205-207): renders
    `f"{label}: {value}"` with `value = info.get(value_key, "N/A")`. -/
def write_metric (uni : Bool) (metrics : List (Str × Str)) (label value_key : Str) : Str :=
  pdf_safe uni (label ++ (": ").data ++ (dictGet metrics value_key).getD strNA)

/-- The "slider" sub-dictionary of the info mapping (lines 214-222): the
    three formatted labels (each read with `dict.get` and default "N/A") and
    the raw position entry. -/
structure SliderInfo where
  low_formatted : Option Str
  high_formatted : Option Str
  price_formatted : Option Str
  position : Option (Option ℚ)
deriving DecidableEq

/-- The drawn gauge block: track and marker rectangles plus the sanitized
    range and current-price label lines. -/
structure GaugeElem where
  track : Rect
  marker : Rect
  rangeLabel : Str
  priceLabel : Str
deriving DecidableEq

/-- The f-string `f"52-week range: {low_label} — {high_label}"` (line 228),
    before sanitization. -/
def rangeLabelStr (low high : Str) : Str :=
  ("52-week range: ").data ++ low ++ [Char.ofNat 32, emDashChar, Char.ofNat 32] ++ high

/-- Rendering of the 52-week slider block (lines 214-242): labels default to
    "N/A", the position is parsed with fallback `0.5` and clamped, the track
    spans the column width and the marker is centered at the clamped
    position. -/
def renderGauge (uni : Bool) (bar_x bar_y : ℚ) (s : SliderInfo) : GaugeElem :=
  ⟨trackRect bar_x bar_y,
   markerRect bar_x bar_y (parsedPosition s.position),
   pdf_safe uni (rangeLabelStr (s.low_formatted.getD strNA) (s.high_formatted.getD strNA)),
   pdf_safe uni (("Current price: ").data ++ (s.price_formatted.getD strNA))⟩

/-- Python `min(values)` for a nonempty list (the code only calls it under
    the `if values:` guard; the empty-list value 0 is unused). -/
def listMin : List ℚ → ℚ
  | [] => 0
  | v :: rest => rest.foldl min v

/-- Python `max(values)` for a nonempty list. -/
def listMax : List ℚ → ℚ
  | [] => 0
  | v :: rest => rest.foldl max v

/-- `span = max(max_val - min_val, 1e-6)` (line 262). -/
def chartSpan (values : List ℚ) : ℚ := max (listMax values - listMin values) span_eps

/-- `step = chart_width / max(1, len(values) - 1)` (line 263). -/
def chartStep (values : List ℚ) : ℚ :=
  chart_width / ((max 1 (values.length - 1) : ℕ) : ℚ)

/-- The vertical pixel mapping
    `y = chart_y + chart_height - ((value - min_val) / span) * chart_height`
    (lines 265 and 270). -/
def chartY (chart_y min_val span v : ℚ) : ℚ :=
  chart_y + chart_height - ((v - min_val) / span) * chart_height

/-- A drawn line segment `pdf.line(prev_x, prev_y, x, y)` as a pair of
    endpoints. -/
abbrev Seg := (ℚ × ℚ) × (ℚ × ℚ)

/-- The mapped pixel point for sample index `idx` and value `v`:
    `x = chart_x + step * idx` (line 269) and the inverted y (line 270). -/
def chartPt (chart_x chart_y min_val span step : ℚ) (idx : ℕ) (v : ℚ) : ℚ × ℚ :=
  (chart_x + step * (idx : ℚ), chartY chart_y min_val span v)

/-- The chart drawing loop `for idx in range(1, len(values))` (lines
    267-272), carrying `(prev_x, prev_y)` and the running index and emitting
    one segment per remaining value. -/
def chartLoop (chart_x chart_y min_val span step : ℚ) :
    (ℚ × ℚ) → ℕ → List ℚ → List Seg
  | _, _, [] => []
  | prev, idx, v :: rest =>
      (prev, chartPt chart_x chart_y min_val span step idx v) ::
        chartLoop chart_x chart_y min_val span step
          (chartPt chart_x chart_y min_val span step idx v) (idx + 1) rest

/-- All polyline segments drawn for a value list: `prev` starts at
    `(chart_x, chart_y + chart_height - ((values[0] - min_val)/span) * chart_height)`
    (lines 264-265) and the loop runs from index 1; the `if values:` guard at
    line 259 makes the empty list draw nothing. -/
def chartSegments (chart_x chart_y : ℚ) (values : List ℚ) : List Seg :=
  match values with
  | [] => []
  | v0 :: rest =>
      chartLoop chart_x chart_y (listMin (v0 :: rest)) (chartSpan (v0 :: rest))
        (chartStep (v0 :: rest))
        (chart_x, chartY chart_y (listMin (v0 :: rest)) (chartSpan (v0 :: rest)) v0) 1 rest

/-- The mapped pixel points of a value list, starting at sample index
    `idx`. -/
def chartPtsFrom (chart_x chart_y min_val span step : ℚ) : ℕ → List ℚ → List (ℚ × ℚ)
  | _, [] => []
  | idx, v :: rest =>
      chartPt chart_x chart_y min_val span step idx v ::
        chartPtsFrom chart_x chart_y min_val span step (idx + 1) rest

/-- All mapped pixel points of a chart over a value list. -/
def chartPts (chart_x chart_y : ℚ) (values : List ℚ) : List (ℚ × ℚ) :=
  chartPtsFrom chart_x chart_y (listMin values) (chartSpan values) (chartStep values) 0 values

/-- The polyline pixel-Y coordinates of a chart. -/
def polylineYs (chart_x chart_y : ℚ) (values : List ℚ) : List ℚ :=
  (chartPts chart_x chart_y values).map Prod.snd

/-- `values = [float(v) for v in history_points]` with the `except` fallback
    to `[]` (lines 255-258): the comprehension raises on the first
    unparseable entry, so one bad value empties the whole list. -/
def parseValues (hp : List (Option ℚ)) : List ℚ :=
  if hp.all Option.isSome then hp.map (fun v => v.getD 0) else []

/-- The drawn chart block: the frame rectangle (line 254) and the polyline
    segments. -/
structure ChartElem where
  frame : Rect
  segments : List Seg
deriving DecidableEq

/-- The chart block body once the guard passed (lines 246-274). -/
def renderChart (chart_x chart_y : ℚ) (hp : List (Option ℚ)) : ChartElem :=
  ⟨⟨chart_x, chart_y, chart_width, chart_height⟩,
   chartSegments chart_x chart_y (parseValues hp)⟩

/-- The chart guard at line 245:
    `if history_points and isinstance(history_points, (list, tuple)) and
    len(history_points) > 1`. -/
def drawChart (chart_x chart_y : ℚ) (history_points : Option (List (Option ℚ))) :
    Option ChartElem :=
  match history_points with
  | none => none
  | some hp => if 1 < hp.length then some (renderChart chart_x chart_y hp) else none

/-- Line 333: `pdf.set_y(max(left_bottom, right_bottom) + 4)`, the shared
    cursor position at which the trailing footer and disclaimer start. -/
def sharedCursorY (left_bottom right_bottom : ℚ) : ℚ :=
  max left_bottom right_bottom + 4

/-- The info mapping consumed by `build_pdf`, restricted to the fields it
    reads: the optional header line, optional badge list, the formatted
    metric entries, the optional slider sub-dictionary and the optional
    history sequence. -/
structure Info where
  header_line : Option Str
  badge_lines : Option (List Str)
  metrics : List (Str × Str)
  slider : Option SliderInfo
  history_points : Option (List (Option ℚ))
deriving DecidableEq

/-- The empty info dictionary substituted by `info = info or {}`
    (line 129). -/
def emptyInfo : Info := ⟨none, none, [], none, none⟩

/-- The metric labels and keys written in the left column, in source order
    (lines 210-212, 278-280, 287-293, 300-306). -/
def metricTable : List (Str × Str) :=
  [(("Share price").data, ("currentPriceFormatted").data),
   (("52-week high").data, ("fiftyTwoWeekHighFormatted").data),
   (("52-week low").data, ("fiftyTwoWeekLowFormatted").data),
   (("Beta").data, ("betaFormatted").data),
   (("52-week change").data, ("fiftyTwoWeekChangeFormatted").data),
   (("Volume").data, ("volumeFormatted").data),
   (("P/E ratio").data, ("peFormatted").data),
   (("EPS").data, ("epsFormatted").data),
   (("PEG ratio").data, ("pegFormatted").data),
   (("Dividend yield").data, ("dividendYieldFormatted").data),
   (("Market cap").data, ("marketCapFormatted").data),
   (("Revenue").data, ("revenueFormatted").data),
   (("Revenue growth YoY").data, ("revenueGrowthFormatted").data),
   (("Operating margin").data, ("operatingMarginFormatted").data),
   (("Free cash flow").data, ("fcfFormatted").data),
   (("Debt to equity").data, ("debtToEquityFormatted").data)]

/-- All metric lines of the left column, each written by `write_metric`. -/
def metricLines (uni : Bool) (metrics : List (Str × Str)) : List Str :=
  metricTable.map (fun lk => write_metric uni metrics lk.1 lk.2)

/-- The document content assembled by `build_pdf` once the encoder is
    available: the sanitized title `f"{company} ({ticker.upper()})"`
    (line 168), the left-column metric lines, the optional gauge and chart
    blocks, and the sanitized insights text.  The vertical offsets
    `gauge_y`, `chart_y` at which the text-layout backend left the cursor
    are parameters, as is the left margin `left_x`. -/
structure Doc where
  title : Str
  metricLinesOut : List Str
  gauge : Option GaugeElem
  chart : Option ChartElem
  insights : Str
deriving DecidableEq

/-- Assembly of the document body (lines 154-351 with the cursor offsets
    abstracted, since they are produced by the external text-layout
    backend). -/
def renderReport (uni : Bool) (left_x gauge_y chart_y : ℚ)
    (company ticker insights_text : Str) (info : Info) : Doc :=
  ⟨pdf_safe uni (company ++ (" (").data ++ ticker.map Char.toUpper ++ (")").data),
   metricLines uni info.metrics,
   (info.slider).map (renderGauge uni left_x gauge_y),
   drawChart left_x chart_y info.history_points,
   pdf_safe uni insights_text⟩

/-- `build_pdf` (lines 121-358): `None` when the encoder `FPDF` is
    unavailable (lines 127-128), otherwise the assembled document, with
    `info = info or {}` defaulting a missing mapping. -/
def build_pdf (fpdf_available uni : Bool) (left_x gauge_y chart_y : ℚ)
    (company ticker insights_text : Str) (info : Option Info) : Option Doc :=
  if fpdf_available = false then none
  else some (renderReport uni left_x gauge_y chart_y company ticker insights_text
    (info.getD emptyInfo))

/-- The caller-side outcome in `_render_pdf_controls`: a download button, the
    informational install notice, or nothing. -/
inductive ControlAction where
  | download (doc : Doc)
  | notice
  | nothing
deriving DecidableEq

/-- `_render_pdf_controls` (app.py lines 185-196): offer the download when
    bytes exist, otherwise show the install notice exactly when
    `PDF_SUPPORTED` is false. -/
def render_pdf_controls (pdf_bytes : Option Doc) (pdf_supported : Bool) : ControlAction :=
  match pdf_bytes with
  | some doc => ControlAction.download doc
  | none => if pdf_supported = false then ControlAction.notice else ControlAction.nothing

/-- Three consecutive newline characters. -/
def threeNewlines : Str := [nlChar, nlChar, nlChar]

/-- A small sample text containing an em dash: the characters of "a—b". -/
def sampleText : Str := [Char.ofNat 97, emDashChar, Char.ofNat 98]

/-- An info mapping exercising the degraded paths: no slider, a history list
    with one unparseable entry, and no metric entries. -/
def degenerateInfo : Info := ⟨none, none, [], none, some [some 1, none]⟩

/-- `charNorm` is idempotent: each replacement output is itself left
    untouched by the replacement table. -/
theorem charNorm_idem (c : Char) : charNorm (charNorm c) = charNorm c := by
  by_cases h1 : c = crChar
  · subst h1; decide
  by_cases h2 : c = emDashChar
  · subst h2; decide
  by_cases h3 : c = enDashChar
  · subst h3; decide
  by_cases h4 : c = bulletChar
  · subst h4; decide
  by_cases h5 : c = rsqChar
  · subst h5; decide
  by_cases h6 : c = lsqChar
  · subst h6; decide
  by_cases h7 : c = ldqChar
  · subst h7; decide
  by_cases h8 : c = rdqChar
  · subst h8; decide
  have hc : charNorm c = c := by
    unfold charNorm
    simp [h1, h2, h3, h4, h5, h6, h7, h8]
  rw [hc, hc]

/-- Characters of a collapsed string come from the original string. -/
theorem mem_of_mem_collapsePairs (a c : Char) :
    ∀ l : Str, c ∈ collapsePairs a l → c ∈ l
  | [], h => h
  | [_], h => h
  | d :: e :: rest, h => by
      simp only [collapsePairs] at h
      split_ifs at h with hde
      · rcases List.mem_cons.mp h with h | h
        · rw [h, ← hde.1]; exact List.mem_cons_self _ _
        · exact List.mem_cons_of_mem _
            (List.mem_cons_of_mem _ (mem_of_mem_collapsePairs a c rest h))
      · rcases List.mem_cons.mp h with h | h
        · rw [h]; exact List.mem_cons_self _ _
        · exact List.mem_cons_of_mem _ (mem_of_mem_collapsePairs a c (e :: rest) h)

/-- Characters of a pair-stripped string come from the original string. -/
theorem mem_of_mem_removePairs (a c : Char) :
    ∀ l : Str, c ∈ removePairs a l → c ∈ l
  | [], h => h
  | [_], h => h
  | d :: e :: rest, h => by
      simp only [removePairs] at h
      split_ifs at h with hde
      · exact List.mem_cons_of_mem _
          (List.mem_cons_of_mem _ (mem_of_mem_removePairs a c rest h))
      · rcases List.mem_cons.mp h with h | h
        · rw [h]; exact List.mem_cons_self _ _
        · exact List.mem_cons_of_mem _ (mem_of_mem_removePairs a c (e :: rest) h)

/-- A string with no adjacent pair of `a` is unchanged by the collapse
    pass. -/
theorem collapsePairs_eq_self (a : Char) :
    ∀ l : Str, noPair a l = true → collapsePairs a l = l
  | [], _ => rfl
  | [_], _ => rfl
  | c :: d :: rest, h => by
      simp only [noPair, Bool.and_eq_true, decide_eq_true_eq] at h
      simp only [collapsePairs, if_neg h.1]
      exact congrArg (c :: ·) (collapsePairs_eq_self a (d :: rest) h.2)

/-- A string with no adjacent pair of `a` is unchanged by the removal
    pass. -/
theorem removePairs_eq_self (a : Char) :
    ∀ l : Str, noPair a l = true → removePairs a l = l
  | [], _ => rfl
  | [_], _ => rfl
  | c :: d :: rest, h => by
      simp only [noPair, Bool.and_eq_true, decide_eq_true_eq] at h
      simp only [removePairs, if_neg h.1]
      exact congrArg (c :: ·) (removePairs_eq_self a (d :: rest) h.2)

/-- A map whose function fixes every element of a list is the identity on
    that list. -/
theorem map_eq_self_of_fixed {α : Type} (f : α → α) :
    ∀ l : List α, (∀ c ∈ l, f c = c) → l.map f = l
  | [], _ => rfl
  | c :: rest, h => by
      rw [List.map_cons, h c (List.mem_cons_self c rest),
        map_eq_self_of_fixed f rest (fun d hd => h d (List.mem_cons_of_mem c hd))]

/-- Every character of a sanitized string already went through
    `charNorm`. -/
theorem mem_map_charNorm_of_mem_pdf_safe {uni : Bool} {x : Str} {c : Char}
    (h : c ∈ pdf_safe uni x) : c ∈ x.map charNorm := by
  have hcore : ∀ {d : Char}, d ∈ sanitizeCore x → d ∈ x.map charNorm := fun hd =>
    mem_of_mem_collapsePairs nlChar _ _ (mem_of_mem_removePairs starChar _ _ hd)
  cases uni with
  | true => exact hcore (by simpa [pdf_safe] using h)
  | false => exact hcore (List.mem_of_mem_filter (by simpa [pdf_safe] using h))

/-- Every character of a sanitized string is a fixed point of
    `charNorm`. -/
theorem charNorm_fixed_of_mem_pdf_safe {uni : Bool} {x : Str} {c : Char}
    (h : c ∈ pdf_safe uni x) : charNorm c = c := by
  rcases List.mem_map.mp (mem_map_charNorm_of_mem_pdf_safe h) with ⟨b, _, rfl⟩
  exact charNorm_idem b

/-- The drawing loop emits exactly the consecutive pairs of the mapped
    points, headed by the carried previous point. -/
theorem chartLoop_eq_zip (cx cy m s st : ℚ) :
    ∀ (vs : List ℚ) (prev : ℚ × ℚ) (idx : ℕ),
      chartLoop cx cy m s st prev idx vs =
        (prev :: chartPtsFrom cx cy m s st idx vs).zip (chartPtsFrom cx cy m s st idx vs)
  | [], _, _ => rfl
  | v :: rest, prev, idx => by
      simp only [chartLoop, chartPtsFrom, List.zip_cons_cons]
      rw [chartLoop_eq_zip cx cy m s st rest _ (idx + 1)]

/-- The segments drawn for a chart connect consecutive mapped points. -/
theorem chartSegments_eq_zip (cx cy : ℚ) (values : List ℚ) :
    chartSegments cx cy values =
      (chartPts cx cy values).zip (chartPts cx cy values).tail := by
  cases values with
  | nil => rfl
  | cons v0 rest =>
      have h0 : chartPt cx cy (listMin (v0 :: rest)) (chartSpan (v0 :: rest))
          (chartStep (v0 :: rest)) 0 v0 =
          (cx, chartY cy (listMin (v0 :: rest)) (chartSpan (v0 :: rest)) v0) := by
        simp [chartPt]
      simp only [chartSegments, chartPts, chartPtsFrom, List.tail_cons, h0]
      rw [chartLoop_eq_zip]

/-- Indexing the mapped point list recovers the point at the shifted
    sample index. -/
theorem chartPtsFrom_getElem? (cx cy m s st : ℚ) :
    ∀ (vs : List ℚ) (idx i : ℕ),
      (chartPtsFrom cx cy m s st idx vs)[i]? =
        (vs[i]?).map (fun v => chartPt cx cy m s st (idx + i) v)
  | [], idx, i => by simp [chartPtsFrom]
  | v :: rest, idx, 0 => by simp [chartPtsFrom]
  | v :: rest, idx, i + 1 => by
      simp only [chartPtsFrom, List.getElem?_cons_succ]
      rw [chartPtsFrom_getElem? cx cy m s st rest (idx + 1) i]
      have hadd : idx + 1 + i = idx + (i + 1) := by omega
      rw [hadd]

/-- The pixel-Y coordinates of the mapped points are the values mapped
    through the inverted vertical transform. -/
theorem map_snd_chartPtsFrom (cx cy m s st : ℚ) :
    ∀ (vs : List ℚ) (idx : ℕ),
      (chartPtsFrom cx cy m s st idx vs).map Prod.snd = vs.map (chartY cy m s)
  | [], _ => rfl
  | v :: rest, idx => by
      simp only [chartPtsFrom, List.map_cons]
      rw [map_snd_chartPtsFrom cx cy m s st rest (idx + 1)]
      rfl

/-- The epsilon-protected span is always positive. -/
theorem chartSpan_pos (values : List ℚ) : 0 < chartSpan values :=
  lt_of_lt_of_le (by norm_num [span_eps]) (le_max_right _ _)

/-- Folding `min` over copies of the accumulator keeps the accumulator. -/
theorem foldl_min_const (v : ℚ) :
    ∀ rest : List ℚ, (∀ w ∈ rest, w = v) → rest.foldl min v = v
  | [], _ => rfl
  | w :: r, h => by
      rw [List.foldl_cons, h w (List.mem_cons_self w r), min_self]
      exact foldl_min_const v r (fun u hu => h u (List.mem_cons_of_mem w hu))

/-- Folding `max` over copies of the accumulator keeps the accumulator. -/
theorem foldl_max_const (v : ℚ) :
    ∀ rest : List ℚ, (∀ w ∈ rest, w = v) → rest.foldl max v = v
  | [], _ => rfl
  | w :: r, h => by
      rw [List.foldl_cons, h w (List.mem_cons_self w r), max_self]
      exact foldl_max_const v r (fun u hu => h u (List.mem_cons_of_mem w hu))

/-- On an all-equal value list the span degrades to the epsilon. -/
theorem chartSpan_of_const (values : List ℚ) (h2 : 2 ≤ values.length)
    (heq : ∀ v ∈ values, ∀ w ∈ values, v = w) : chartSpan values = span_eps := by
  cases values with
  | nil => simp at h2
  | cons v rest =>
      have hall : ∀ w ∈ rest, w = v := fun w hw =>
        heq w (List.mem_cons_of_mem v hw) v (List.mem_cons_self v rest)
      rw [chartSpan, listMin, listMax, foldl_min_const v rest hall,
        foldl_max_const v rest hall, sub_self]
      exact max_eq_right (by norm_num [span_eps])

/-- The clamped position is nonnegative. -/
theorem clamp01_nonneg (pos : ℚ) : 0 ≤ clamp01 pos := le_max_left 0 _

/-- The clamped position is at most one. -/
theorem clamp01_le_one (pos : ℚ) : clamp01 pos ≤ 1 :=
  max_le (by norm_num) (min_le_left 1 pos)

/-- One half is its own clamp. -/
theorem clamp01_half : clamp01 (1 / 2) = 1 / 2 := by
  rw [clamp01, min_eq_right (by norm_num : (1 : ℚ) / 2 ≤ 1),
    max_eq_right (by norm_num : (0 : ℚ) ≤ 1 / 2)]

/-- The vertical pixel transform is antitone in the value: larger values map
    to smaller pixel Y (the drawing axis grows downward). -/
theorem chartY_antitone (cy m : ℚ) {span : ℚ} (hs : 0 < span) {a b : ℚ}
    (hab : a ≤ b) : chartY cy m span b ≤ chartY cy m span a := by
  have h1 : (a - m) / span ≤ (b - m) / span :=
    (div_le_div_iff_of_pos_right hs).mpr (by linarith)
  have h2 := mul_le_mul_of_nonneg_right h1 (by norm_num : (0 : ℚ) ≤ 40)
  simp only [chartY, chart_height]
  linarith

/-- Claim C1: after both columns are laid out, `build_pdf` sets the shared
    page cursor to `max(left_bottom, right_bottom)` plus the fixed gap 4, so
    the trailing shared content (footer, disclaimer) starts at a Y that is
    greater than or equal to both columns' final Y cursors. -/
theorem shared_cursor_reconciliation (left_bottom right_bottom : ℚ) :
    sharedCursorY left_bottom right_bottom = max left_bottom right_bottom + 4 ∧
    left_bottom ≤ sharedCursorY left_bottom right_bottom ∧
    right_bottom ≤ sharedCursorY left_bottom right_bottom := by
  refine ⟨rfl, ?_, ?_⟩
  · have h := le_max_left left_bottom right_bottom
    rw [sharedCursorY]
    linarith
  · have h := le_max_right left_bottom right_bottom
    rw [sharedCursorY]
    linarith

/-- Claim C2: the marker rectangle's horizontal center equals
    `bar_x + left_width * clamp01 pos` for every real position; it always
    lies within the track's horizontal bounds, and at position 1/2 it is the
    horizontal midpoint of the track. -/
theorem marker_center_clamped (bar_x bar_y pos : ℚ) :
    rectCenterX (markerRect bar_x bar_y pos) = bar_x + left_width * clamp01 pos ∧
    bar_x ≤ rectCenterX (markerRect bar_x bar_y pos) ∧
    rectCenterX (markerRect bar_x bar_y pos) ≤ bar_x + left_width ∧
    rectCenterX (markerRect bar_x bar_y (1 / 2)) = bar_x + left_width / 2 := by
  have hc : ∀ q : ℚ, rectCenterX (markerRect bar_x bar_y q) =
      bar_x + left_width * clamp01 q := by
    intro q
    rw [markerRect, rectCenterX]
    ring
  have h0 := clamp01_nonneg pos
  have h1 := clamp01_le_one pos
  refine ⟨hc pos, ?_, ?_, ?_⟩
  · rw [hc pos, left_width]
    nlinarith
  · rw [hc pos, left_width]
    nlinarith
  · rw [hc (1 / 2), clamp01_half]
    ring

/-- Claim C3: for a numeric sequence of length at least 2, the drawn chart
    segments connect consecutive mapped points, and the point of sample
    index `i` with value `v` is
    `(chart_x + i * (chart_width / (n - 1)),
      chart_y + chart_height - ((v - min) / max(max - min, eps)) * chart_height)`. -/
theorem chart_maps_points (chart_x chart_y : ℚ) (values : List ℚ)
    (h : 2 ≤ values.length) :
    chartSegments chart_x chart_y values =
      (chartPts chart_x chart_y values).zip (chartPts chart_x chart_y values).tail ∧
    ∀ (i : ℕ) (v : ℚ), values[i]? = some v →
      (chartPts chart_x chart_y values)[i]? =
        some (chart_x + (i : ℚ) * (chart_width / ((values.length - 1 : ℕ) : ℚ)),
          chart_y + chart_height -
            ((v - listMin values) / chartSpan values) * chart_height) := by
  refine ⟨chartSegments_eq_zip chart_x chart_y values, ?_⟩
  intro i v hv
  rw [chartPts, chartPtsFrom_getElem?, hv]
  have hstep : chartStep values = chart_width / ((values.length - 1 : ℕ) : ℚ) := by
    rw [chartStep, max_eq_right (by omega : 1 ≤ values.length - 1)]
  simp only [Option.map_some', chartPt, chartY, hstep, Option.some.injEq,
    Prod.mk.injEq, Nat.zero_add, zero_add]
  constructor
  · ring
  · ring_nf

/-- Claim C3 witness: the two-point series `[0, 1]` at origin `(0, 0)` maps
    sample index 1 to the concrete pixel point given by the formulas. -/
theorem chart_maps_points_witness :
    (chartPts 0 0 [0, 1])[1]? =
      some (0 + (1 : ℚ) * (chart_width / ((([0, 1] : List ℚ).length - 1 : ℕ) : ℚ)),
        0 + chart_height - ((1 - listMin [0, 1]) / chartSpan [0, 1]) * chart_height) :=
  (chart_maps_points 0 0 [0, 1] (by decide)).2 1 1 rfl

/-- Claim C4: histories shorter than two points draw no chart at all; the
    epsilon-protected span is positive for every value list (so the y
    division is never by zero); and a length-two-or-more all-equal sequence
    still renders, with the span replaced by the positive epsilon. -/
theorem chart_guard_and_span (chart_x chart_y : ℚ) :
    (∀ hp : List (Option ℚ), hp.length < 2 →
      drawChart chart_x chart_y (some hp) = none) ∧
    drawChart chart_x chart_y none = none ∧
    (∀ values : List ℚ, 0 < chartSpan values) ∧
    (∀ values : List ℚ, 2 ≤ values.length →
      (∀ v ∈ values, ∀ w ∈ values, v = w) →
      chartSpan values = span_eps ∧
      (drawChart chart_x chart_y (some (values.map some))).isSome = true) := by
  refine ⟨?_, rfl, chartSpan_pos, ?_⟩
  · intro hp hlen
    simp only [drawChart]
    rw [if_neg (by omega)]
  · intro values h2 heq
    refine ⟨chartSpan_of_const values h2 heq, ?_⟩
    simp only [drawChart]
    rw [if_pos (by rw [List.length_map]; omega)]
    rfl

/-- Claim C4 witness: the singleton history draws nothing, and the flat
    two-point series `[5, 5]` has span equal to the epsilon and still
    renders a chart. -/
theorem chart_guard_and_span_witness :
    drawChart 0 0 (some [some 5]) = none ∧
    (0 : ℚ) < chartSpan [3] ∧
    chartSpan [5, 5] = span_eps ∧
    (drawChart 0 0 (some (([5, 5] : List ℚ).map some))).isSome = true := by
  have h := chart_guard_and_span 0 0
  have h5 := h.2.2.2 [5, 5] (by decide) (by decide)
  exact ⟨h.1 [some 5] (by decide), h.2.2.1 [3], h5.1, h5.2⟩

/-- Claim C5 (counterexample): `pdf_safe` is not idempotent.  Three
    consecutive newlines sanitize to two (the single left-to-right
    `replace("\n\n", "\n")` pass leaves the third newline next to the
    replacement), and a second application collapses those two into one, in
    both font modes. -/
theorem pdf_safe_not_idempotent :
    pdf_safe true (pdf_safe true threeNewlines) ≠ pdf_safe true threeNewlines ∧
    pdf_safe false (pdf_safe false threeNewlines) ≠ pdf_safe false threeNewlines := by
  constructor
  · decide
  · decide

/-- Claim C5 (amended): `pdf_safe` is idempotent on every input whose
    sanitized form contains no two adjacent newlines and no two adjacent
    asterisks. -/
theorem pdf_safe_idem (uni : Bool) (x : Str)
    (hnl : noPair nlChar (pdf_safe uni x) = true)
    (hst : noPair starChar (pdf_safe uni x) = true) :
    pdf_safe uni (pdf_safe uni x) = pdf_safe uni x := by
  have hmap : (pdf_safe uni x).map charNorm = pdf_safe uni x :=
    map_eq_self_of_fixed charNorm _ (fun c hc => charNorm_fixed_of_mem_pdf_safe hc)
  have hcore : sanitizeCore (pdf_safe uni x) = pdf_safe uni x := by
    rw [sanitizeCore, hmap, collapsePairs_eq_self nlChar _ hnl,
      removePairs_eq_self starChar _ hst]
  cases uni with
  | true => simpa [pdf_safe] using hcore
  | false =>
      have hfix : (pdf_safe false x).filter latin1Keep = pdf_safe false x := by
        apply List.filter_eq_self.mpr
        intro c hc
        simp only [pdf_safe, Bool.false_eq_true, if_false] at hc
        exact List.of_mem_filter hc
      calc pdf_safe false (pdf_safe false x)
          = (sanitizeCore (pdf_safe false x)).filter latin1Keep := by
            simp [pdf_safe]
        _ = (pdf_safe false x).filter latin1Keep := by rw [hcore]
        _ = pdf_safe false x := hfix

/-- Claim C5 witness: a sample containing an em dash sanitizes to a
    pair-free string, on which `pdf_safe` is idempotent. -/
theorem pdf_safe_idem_witness :
    noPair nlChar (pdf_safe true sampleText) = true ∧
    noPair starChar (pdf_safe true sampleText) = true ∧
    pdf_safe true (pdf_safe true sampleText) = pdf_safe true sampleText :=
  ⟨by decide, by decide, pdf_safe_idem true sampleText (by decide) (by decide)⟩

/-- Concrete evaluation of the polyline pixel-Y coordinates of the
    ascending series `[0, 1]` drawn at origin `(0, 0)`. -/
theorem polyline_ys_zero_one : polylineYs 0 0 [0, 1] = [40, 0] := by
  have hmin : listMin [0, 1] = 0 := by
    simp [listMin, min_def]
  have hmax : listMax [0, 1] = 1 := by
    simp [listMax, max_def]
  have hspan : chartSpan [0, 1] = 1 := by
    rw [chartSpan, hmin, hmax]
    rw [max_eq_left (by norm_num [span_eps])]
    norm_num
  simp [polylineYs, chartPts, chartPtsFrom, chartPt, chartY, hmin, hspan,
    chart_height]

/-- Claim C6 (counterexample): the strictly ascending two-point series
    `[0, 1]` maps to the pixel-Y sequence `[40, 0]`, which is not
    monotonically non-decreasing: the inverted drawing axis sends ascending
    values to descending pixel Y. -/
theorem polyline_ys_not_monotone_cex :
    ([0, 1] : List ℚ).Chain' (fun a b => a < b) ∧
    polylineYs 0 0 [0, 1] = [40, 0] ∧
    ¬ (polylineYs 0 0 [0, 1]).Chain' (fun a b => a ≤ b) := by
  refine ⟨?_, polyline_ys_zero_one, ?_⟩
  · simp [List.chain'_cons]
  · rw [polyline_ys_zero_one]
    simp [List.chain'_cons]

/-- Claim C6 (amended): for every strictly ascending numeric sequence of
    length at least 2, the mapped polyline pixel-Y coordinates are
    monotonically non-increasing. -/
theorem polyline_ys_antitone (chart_x chart_y : ℚ) (values : List ℚ)
    (_h2 : 2 ≤ values.length) (hasc : values.Chain' (fun a b => a < b)) :
    (polylineYs chart_x chart_y values).Chain' (fun a b => b ≤ a) := by
  rw [polylineYs, chartPts, map_snd_chartPtsFrom, List.chain'_map]
  exact hasc.imp (fun a b hab =>
    chartY_antitone chart_y (listMin values) (chartSpan_pos values) hab.le)

/-- Claim C6 witness: the ascending series `[1, 2]` yields a non-increasing
    pixel-Y chain. -/
theorem polyline_ys_antitone_witness :
    2 ≤ ([1, 2] : List ℚ).length ∧
    (polylineYs 0 0 [1, 2]).Chain' (fun a b => b ≤ a) :=
  ⟨by decide, polyline_ys_antitone 0 0 [1, 2] (by decide)
    (by simp [List.chain'_cons])⟩

/-- Claim C7: when the binary encoder is unavailable, `build_pdf` returns
    `None` for every input without raising, and `_render_pdf_controls`
    surfaces the informational message instead of a download button
    (`PDF_SUPPORTED` is false exactly when `FPDF` is `None`). -/
theorem build_pdf_unsupported (uni : Bool) (left_x gauge_y chart_y : ℚ)
    (company ticker insights_text : Str) (info : Option Info) :
    build_pdf false uni left_x gauge_y chart_y company ticker insights_text info =
      none ∧
    render_pdf_controls
      (build_pdf false uni left_x gauge_y chart_y company ticker insights_text info)
      false = ControlAction.notice := by
  constructor
  · rfl
  · rfl

/-- Claim C8: with the encoder available, `build_pdf` totally assembles a
    document for every info mapping; each degenerate optional input only
    degrades its own element: a missing slider omits the gauge, missing or
    short history omits the chart, an unparseable history value empties the
    polyline while keeping the chart frame, and an absent metric key renders
    the "N/A" line. -/
theorem build_pdf_graceful (uni : Bool) (left_x gauge_y chart_y : ℚ)
    (company ticker insights_text : Str) (info : Info) :
    (build_pdf true uni left_x gauge_y chart_y company ticker insights_text
      (some info)).isSome = true ∧
    (info.slider = none →
      (renderReport uni left_x gauge_y chart_y company ticker insights_text
        info).gauge = none) ∧
    (info.history_points = none →
      (renderReport uni left_x gauge_y chart_y company ticker insights_text
        info).chart = none) ∧
    (∀ hp, info.history_points = some hp → hp.length < 2 →
      (renderReport uni left_x gauge_y chart_y company ticker insights_text
        info).chart = none) ∧
    (∀ hp : List (Option ℚ), hp.all Option.isSome = false →
      parseValues hp = [] ∧
      renderChart left_x chart_y hp =
        ⟨⟨left_x, chart_y, chart_width, chart_height⟩, []⟩) ∧
    (∀ label key, dictGet info.metrics key = none →
      write_metric uni info.metrics label key =
        pdf_safe uni (label ++ (": ").data ++ strNA)) := by
  refine ⟨rfl, ?_, ?_, ?_, ?_, ?_⟩
  · intro h
    show (info.slider).map (renderGauge uni left_x gauge_y) = none
    rw [h, Option.map_none']
  · intro h
    show drawChart left_x chart_y info.history_points = none
    rw [h, drawChart]
  · intro hp h hlen
    show drawChart left_x chart_y info.history_points = none
    rw [h]
    simp only [drawChart]
    rw [if_neg (by omega)]
  · intro hp hall
    have hparse : parseValues hp = [] := by
      rw [parseValues, if_neg (by simp [hall])]
    refine ⟨hparse, ?_⟩
    rw [renderChart, hparse]
    rfl
  · intro label key h
    rw [write_metric, h]
    rfl

/-- Claim C8 witness: a concrete degenerate info mapping (no slider, a
    history list with an unparseable entry, no metric entries) still yields
    a document, with the gauge omitted, the polyline emptied, and metric
    lines rendered as "N/A". -/
theorem build_pdf_graceful_witness :
    (build_pdf true true 0 0 0 [] [] [] (some degenerateInfo)).isSome = true ∧
    (renderReport true 0 0 0 [] [] [] degenerateInfo).gauge = none ∧
    parseValues [some 1, none] = [] ∧
    write_metric true [] ([Char.ofNat 66]) ([Char.ofNat 98]) =
      pdf_safe true ([Char.ofNat 66] ++ (": ").data ++ strNA) := by
  have h := build_pdf_graceful true 0 0 0 [] [] [] degenerateInfo
  exact ⟨h.1, h.2.1 rfl, (h.2.2.2.2.1 [some 1, none] (by decide)).1,
    h.2.2.2.2.2 [Char.ofNat 66] [Char.ofNat 98] rfl⟩

/-- Claim C9: a metric whose key is absent from the info mapping is still
    rendered by `write_metric`, with the literal value "N/A" substituted in
    the displayed line. -/
theorem write_metric_missing_key (uni : Bool) (metrics : List (Str × Str))
    (label value_key : Str) (h : dictGet metrics value_key = none) :
    write_metric uni metrics label value_key =
      pdf_safe uni (label ++ (": ").data ++ ("N/A").data) := by
  rw [write_metric, h]
  rfl

/-- Claim C9 witness: the Beta metric against an empty info mapping renders
    "Beta: N/A". -/
theorem write_metric_missing_key_witness :
    dictGet [] (("betaFormatted").data) = none ∧
    write_metric true [] (("Beta").data) (("betaFormatted").data) =
      pdf_safe true ((("Beta").data) ++ (": ").data ++ ("N/A").data) :=
  ⟨rfl, write_metric_missing_key true [] (("Beta").data) (("betaFormatted").data) rfl⟩

/-- Claim C10: a slider whose position entry is missing or unparseable is
    still rendered, with the position defaulting to 1/2 and the marker
    centered at the horizontal midpoint of the track. -/
theorem gauge_default_position (uni : Bool) (bar_x bar_y : ℚ) (s : SliderInfo)
    (h : s.position = none ∨ s.position = some none) :
    (renderGauge uni bar_x bar_y s).marker = markerRect bar_x bar_y (1 / 2) ∧
    rectCenterX (renderGauge uni bar_x bar_y s).marker = bar_x + left_width / 2 := by
  have hp : parsedPosition s.position = 1 / 2 := by
    rcases h with h | h
    · rw [h]; rfl
    · rw [h]; rfl
  have hm : (renderGauge uni bar_x bar_y s).marker = markerRect bar_x bar_y (1 / 2) := by
    show markerRect bar_x bar_y (parsedPosition s.position) = markerRect bar_x bar_y (1 / 2)
    rw [hp]
  refine ⟨hm, ?_⟩
  rw [hm, markerRect, rectCenterX, clamp01_half]
  ring

/-- Claim C10 witness: the slider with every entry missing renders its
    marker at the track midpoint. -/
theorem gauge_default_position_witness :
    (renderGauge true 0 0 ⟨none, none, none, none⟩).marker =
      markerRect 0 0 (1 / 2) ∧
    rectCenterX (renderGauge true 0 0 ⟨none, none, none, none⟩).marker =
      0 + left_width / 2 :=
  gauge_default_position true 0 0 ⟨none, none, none, none⟩ (Or.inl rfl)

end Decoder
